import Mathlib

/-!
Verification of the OpcUa_Buffer component (src/Stack/core/opcua_buffer.h).

The repository ships only the header: the struct `OpcUa_Buffer` (SanityCheck,
Size, EndOfData, Position, BlockSize, MaxSize, Data, FreeBuffer), the operation
signatures, and the position sentinels `OpcUa_BufferPosition_Start = 0` and
`OpcUa_BufferPosition_End = 0xFFFFFFFF`.  The operation bodies are not part of
the sources, so each operation below is modelled from the specification text
(sections 3, 4 and 7 of the design document), keeping the header's names and
field layout.  Byte storage is a `List Nat`, offsets are `Nat`.
-/

set_option maxHeartbeats 1000000

/-- Status codes of the buffer operations.  Modelled from the spec: error kinds
InvalidArgument, InvalidHandle, InvalidState, OutOfMemory, plus success. -/
inductive OpcUa_StatusCode where
  | Good
  | BadInvalidArgument
  | BadInvalidHandle
  | BadInvalidState
  | BadOutOfMemory
deriving DecidableEq, Repr

/-- The buffer record, following the struct `_OpcUa_Buffer` in
src/Stack/core/opcua_buffer.h (fields in source order).  `SanityCheck` is the
validity tag (a boolean here: set on construction, cleared on release),
`Size` the capacity, `Data` the backing storage. -/
structure OpcUa_Buffer where
  SanityCheck : Bool
  Size : Nat
  EndOfData : Nat
  Position : Nat
  BlockSize : Nat
  MaxSize : Nat
  Data : List Nat
  FreeBuffer : Bool
deriving DecidableEq, Repr

/-- Sentinel accepted by SetPosition: move the cursor to the start
(`#define OpcUa_BufferPosition_Start 0` in the header). -/
def OpcUa_BufferPosition_Start : Nat := 0

/-- Sentinel accepted by SetPosition: move the cursor to the end of data
(`#define OpcUa_BufferPosition_End 0xFFFFFFFF` in the header). -/
def OpcUa_BufferPosition_End : Nat := 0xFFFFFFFF

/-- The smallest multiple of `blockSize` that is at least `required`
(for `blockSize = 0` this yields 0; growth is rejected before it is used). -/
def roundUp (required blockSize : Nat) : Nat :=
  ((required + blockSize - 1) / blockSize) * blockSize

/-- Overwrite `bytes` into `storage` starting at offset `pos`, leaving the
prefix before `pos` and the suffix after `pos + bytes.length` in place. -/
def overwrite (storage : List Nat) (pos : Nat) (bytes : List Nat) : List Nat :=
  storage.take pos ++ (bytes ++ storage.drop (pos + bytes.length))

/-- Reallocate the storage of `b` to `newSize` bytes: the existing bytes are
copied over (kept) and the fresh tail is zero-filled. -/
def grow (b : OpcUa_Buffer) (newSize : Nat) : OpcUa_Buffer :=
  { b with Size := newSize,
           Data := b.Data ++ List.replicate (newSize - b.Data.length) 0 }

/-- Commit a write of `data` at the current position: copy the bytes into
storage at `Position`, advance `Position` by `data.length`, and set
`EndOfData` to the maximum of its old value and the new position. -/
def writeCommit (b : OpcUa_Buffer) (data : List Nat) : OpcUa_Buffer :=
  { b with Data := overwrite b.Data b.Position data,
           Position := b.Position + data.length,
           EndOfData := max b.EndOfData (b.Position + data.length) }

/-- Modelled from the spec: `OpcUa_Buffer_Create` (the body of
opcua_buffer.c is absent from the sources).  If `data` is supplied the buffer
wraps it (no copy) with `EndOfData = capacity = dataSize`; otherwise fresh
zeroed storage of `dataSize` bytes is allocated and the buffer starts empty.
Fails with InvalidArgument when `maxSize` is nonzero and smaller than the
initial size.  In the model a supplied block is a list whose length is
`dataSize`. -/
def OpcUa_Buffer_Create (data : Option (List Nat)) (dataSize blockSize maxSize : Nat)
    (freeBuffer : Bool) : OpcUa_StatusCode × Option OpcUa_Buffer :=
  if 0 < maxSize ∧ maxSize < dataSize then (.BadInvalidArgument, none)
  else
    match data with
    | some d =>
        (.Good, some (OpcUa_Buffer.mk true dataSize dataSize 0 blockSize maxSize d freeBuffer))
    | none =>
        (.Good, some (OpcUa_Buffer.mk true dataSize 0 0 blockSize maxSize
          (List.replicate dataSize 0) freeBuffer))

/-- Modelled from the spec: `OpcUa_Buffer_Write` (body absent from the
sources).  Checks the validity tag; if `Position + count` fits in the current
capacity the bytes are committed in place; otherwise the buffer grows to the
smallest multiple of `BlockSize` that accommodates the write, failing with
InvalidState when `BlockSize = 0` (fixed-size buffer) and with OutOfMemory
when that new capacity would exceed a nonzero `MaxSize`.  Failures return the
buffer unchanged. -/
def OpcUa_Buffer_Write (b : OpcUa_Buffer) (data : List Nat) :
    OpcUa_StatusCode × OpcUa_Buffer :=
  if b.SanityCheck = false then (.BadInvalidHandle, b)
  else if b.Position + data.length ≤ b.Size then (.Good, writeCommit b data)
  else if b.BlockSize = 0 then (.BadInvalidState, b)
  else if 0 < b.MaxSize ∧ b.MaxSize < roundUp (b.Position + data.length) b.BlockSize then
    (.BadOutOfMemory, b)
  else (.Good, writeCommit (grow b (roundUp (b.Position + data.length) b.BlockSize)) data)

/-- Modelled from the spec: `OpcUa_Buffer_Read` (body absent from the
sources).  Copies `actual = min count (EndOfData - Position)` bytes starting
at `Position`, advances the cursor by `actual`, and never fails on short data
(the subtraction is truncated at zero). -/
def OpcUa_Buffer_Read (b : OpcUa_Buffer) (count : Nat) :
    OpcUa_StatusCode × OpcUa_Buffer × List Nat :=
  if b.SanityCheck = false then (.BadInvalidHandle, b, [])
  else
    (.Good, { b with Position := b.Position + min count (b.EndOfData - b.Position) },
      (b.Data.drop b.Position).take (min count (b.EndOfData - b.Position)))

/-- Modelled from the spec: `OpcUa_Buffer_Skip` (body absent from the
sources).  Fails with InvalidArgument when `length` would move the cursor past
the capacity; otherwise advances the cursor by
`min length (EndOfData - Position)` without touching the storage. -/
def OpcUa_Buffer_Skip (b : OpcUa_Buffer) (length : Nat) :
    OpcUa_StatusCode × OpcUa_Buffer :=
  if b.SanityCheck = false then (.BadInvalidHandle, b)
  else if b.Size < b.Position + length then (.BadInvalidArgument, b)
  else (.Good, { b with Position := b.Position + min length (b.EndOfData - b.Position) })

/-- Modelled from the spec: `OpcUa_Buffer_SetPosition` (body absent from the
sources).  The sentinel `OpcUa_BufferPosition_End` is resolved to the current
`EndOfData`; an explicit target greater than the capacity is rejected with
InvalidArgument. -/
def OpcUa_Buffer_SetPosition (b : OpcUa_Buffer) (position : Nat) :
    OpcUa_StatusCode × OpcUa_Buffer :=
  if b.SanityCheck = false then (.BadInvalidHandle, b)
  else if b.Size < (if position = OpcUa_BufferPosition_End then b.EndOfData else position) then
    (.BadInvalidArgument, b)
  else
    (.Good, { b with
      Position := if position = OpcUa_BufferPosition_End then b.EndOfData else position })

/-- Modelled from the spec: `OpcUa_Buffer_GetPosition` (body absent from the
sources).  Returns the cursor. -/
def OpcUa_Buffer_GetPosition (b : OpcUa_Buffer) : OpcUa_StatusCode × Nat :=
  if b.SanityCheck = false then (.BadInvalidHandle, 0)
  else (.Good, b.Position)

/-- Modelled from the spec: `OpcUa_Buffer_SetEndOfData` (body absent from the
sources).  Sets the valid-data boundary; a target greater than the capacity is
rejected with InvalidArgument. -/
def OpcUa_Buffer_SetEndOfData (b : OpcUa_Buffer) (uEndOfData : Nat) :
    OpcUa_StatusCode × OpcUa_Buffer :=
  if b.SanityCheck = false then (.BadInvalidHandle, b)
  else if b.Size < uEndOfData then (.BadInvalidArgument, b)
  else (.Good, { b with EndOfData := uEndOfData })

/-- Modelled from the spec: `OpcUa_Buffer_GetData` (body absent from the
sources).  Exposes the raw storage and the current `EndOfData` without moving
the cursor. -/
def OpcUa_Buffer_GetData (b : OpcUa_Buffer) : OpcUa_StatusCode × List Nat × Nat :=
  if b.SanityCheck = false then (.BadInvalidHandle, [], 0)
  else (.Good, b.Data, b.EndOfData)

/-- Modelled from the spec: `OpcUa_Buffer_SetEmpty` (body absent from the
sources).  Resets `Position` and `EndOfData` to 0, keeping capacity and
storage. -/
def OpcUa_Buffer_SetEmpty (b : OpcUa_Buffer) : OpcUa_StatusCode × OpcUa_Buffer :=
  if b.SanityCheck = false then (.BadInvalidHandle, b)
  else (.Good, { b with Position := 0, EndOfData := 0 })

/-- Modelled from the spec: `OpcUa_Buffer_IsEmpty` (body absent from the
sources).  True exactly when `EndOfData = 0`. -/
def OpcUa_Buffer_IsEmpty (b : OpcUa_Buffer) : Bool :=
  b.EndOfData == 0

/-- Modelled from the spec: `OpcUa_Buffer_Clear` (release; body absent from
the sources).  Always invalidates the buffer and resets the offsets; the
storage is freed (dropped here) exactly when the buffer owns it
(`FreeBuffer`). -/
def OpcUa_Buffer_Clear (b : OpcUa_Buffer) : OpcUa_Buffer :=
  { b with SanityCheck := false,
           Size := if b.FreeBuffer then 0 else b.Size,
           EndOfData := 0,
           Position := 0,
           Data := if b.FreeBuffer then [] else b.Data }

/-- Modelled from the spec: `OpcUa_Buffer_Delete` (body absent from the
sources).  A no-op on a null handle; otherwise the buffer is cleared, the
struct freed and the handle nulled. -/
def OpcUa_Buffer_Delete (pp : Option OpcUa_Buffer) : Option OpcUa_Buffer :=
  match pp with
  | none => none
  | some _ => none

/-- One operation of the buffer API, for reasoning about arbitrary call
sequences (the set listed by the invariant claim). -/
inductive BufferOp where
  | write (data : List Nat)
  | read (count : Nat)
  | skip (length : Nat)
  | setPosition (position : Nat)
  | setEndOfData (uEndOfData : Nat)
  | setEmpty
  | getData
  | delete
deriving DecidableEq, Repr

/-- Apply one operation to a buffer, returning the status and the post-state
(on failure the post-state is the unchanged input). -/
def step (b : OpcUa_Buffer) : BufferOp → OpcUa_StatusCode × OpcUa_Buffer
  | .write data => OpcUa_Buffer_Write b data
  | .read count => ((OpcUa_Buffer_Read b count).1, (OpcUa_Buffer_Read b count).2.1)
  | .skip length => OpcUa_Buffer_Skip b length
  | .setPosition position => OpcUa_Buffer_SetPosition b position
  | .setEndOfData uEndOfData => OpcUa_Buffer_SetEndOfData b uEndOfData
  | .setEmpty => OpcUa_Buffer_SetEmpty b
  | .getData => ((OpcUa_Buffer_GetData b).1, b)
  | .delete => (.Good, OpcUa_Buffer_Clear b)

/-- Run a sequence of operations, threading the buffer state. -/
def run (b : OpcUa_Buffer) (ops : List BufferOp) : OpcUa_Buffer :=
  ops.foldl (fun s op => (step s op).2) b

/-- A live, well-formed buffer: valid tag, cursor within the data, data within
the capacity, and storage of exactly the capacity's length. -/
def ValidBuffer (b : OpcUa_Buffer) : Prop :=
  b.SanityCheck = true ∧ b.Position ≤ b.EndOfData ∧ b.EndOfData ≤ b.Size ∧
    b.Data.length = b.Size

instance (b : OpcUa_Buffer) : Decidable (ValidBuffer b) := by
  unfold ValidBuffer; infer_instance

/-- `roundUp` dominates its argument when the block size is positive. -/
theorem roundUp_ge (n bs : Nat) (h : 0 < bs) : n ≤ roundUp n bs := by
  unfold roundUp
  have hdm := Nat.div_add_mod (n + bs - 1) bs
  have hlt := Nat.mod_lt (n + bs - 1) h
  have hcm : ((n + bs - 1) / bs) * bs = bs * ((n + bs - 1) / bs) := Nat.mul_comm _ _
  omega

/-- `roundUp n bs` is a multiple of `bs`. -/
theorem roundUp_dvd (n bs : Nat) : bs ∣ roundUp n bs :=
  Dvd.intro _ (Nat.mul_comm _ _)

/-- `roundUp n bs` is the least multiple of `bs` that dominates `n`. -/
theorem roundUp_min (n bs m : Nat) (h : 0 < bs) (hd : bs ∣ m) (hm : n ≤ m) :
    roundUp n bs ≤ m := by
  obtain ⟨k, hk⟩ := hd
  subst hk
  unfold roundUp
  have hdm := Nat.div_add_mod (n + bs - 1) bs
  have hlt := Nat.mod_lt (n + bs - 1) h
  have hq : (n + bs - 1) / bs ≤ k := by
    by_contra hc
    push_neg at hc
    have h1 : k + 1 ≤ (n + bs - 1) / bs := hc
    have h2 : (k + 1) * bs ≤ ((n + bs - 1) / bs) * bs := Nat.mul_le_mul_right bs h1
    have h3 : (k + 1) * bs = k * bs + bs := by ring
    have h4 : ((n + bs - 1) / bs) * bs = bs * ((n + bs - 1) / bs) := Nat.mul_comm _ _
    have h5 : bs * k = k * bs := Nat.mul_comm _ _
    omega
  calc ((n + bs - 1) / bs) * bs ≤ k * bs := Nat.mul_le_mul_right bs hq
    _ = bs * k := Nat.mul_comm _ _

/-- Overwriting inside the storage keeps its length. -/
theorem overwrite_length (s : List Nat) (p : Nat) (d : List Nat)
    (h : p + d.length ≤ s.length) :
    (overwrite s p d).length = s.length := by
  unfold overwrite
  simp [List.length_append, List.length_take, List.length_drop]
  omega

/-- Helper: dropping exactly the first list of an append and taking the second
returns the second. -/
theorem drop_take_append (a b c : List Nat) (p : Nat) (h : a.length = p) :
    ((a ++ (b ++ c)).drop p).take b.length = b := by
  subst h
  rw [List.drop_left, List.take_left]

/-- Reading back the overwritten range yields exactly the written bytes. -/
theorem overwrite_slice (s : List Nat) (p : Nat) (d : List Nat)
    (h : p ≤ s.length) :
    ((overwrite s p d).drop p).take d.length = d := by
  unfold overwrite
  exact drop_take_append _ _ _ _ (by simp [List.length_take]; omega)

/-- Characterization of a non-growing write. -/
theorem write_nogrow_eq (b : OpcUa_Buffer) (data : List Nat)
    (hs : b.SanityCheck = true) (hle : b.Position + data.length ≤ b.Size) :
    OpcUa_Buffer_Write b data = (.Good, writeCommit b data) := by
  unfold OpcUa_Buffer_Write
  rw [if_neg (by simp [hs]), if_pos hle]

/-- Characterization of a successful growing write. -/
theorem write_grow_eq (b : OpcUa_Buffer) (data : List Nat)
    (hs : b.SanityCheck = true) (hg : b.Size < b.Position + data.length)
    (hbs : b.BlockSize ≠ 0)
    (hmax : 0 < b.MaxSize → roundUp (b.Position + data.length) b.BlockSize ≤ b.MaxSize) :
    OpcUa_Buffer_Write b data =
      (.Good, writeCommit (grow b (roundUp (b.Position + data.length) b.BlockSize)) data) := by
  unfold OpcUa_Buffer_Write
  rw [if_neg (by simp [hs]), if_neg (by omega), if_neg hbs,
    if_neg (by rintro ⟨h1, h2⟩; exact absurd (hmax h1) (by omega))]

/-- Every single operation keeps both offsets within the capacity. -/
theorem step_bounds (b : OpcUa_Buffer) (op : BufferOp)
    (h1 : b.Position ≤ b.Size) (h2 : b.EndOfData ≤ b.Size) :
    (step b op).2.Position ≤ (step b op).2.Size ∧
      (step b op).2.EndOfData ≤ (step b op).2.Size := by
  cases op with
  | write data =>
      dsimp only [step]
      unfold OpcUa_Buffer_Write
      split_ifs with hs hle hbs hmax
      · exact ⟨h1, h2⟩
      · dsimp only [writeCommit]
        omega
      · exact ⟨h1, h2⟩
      · exact ⟨h1, h2⟩
      · have hge := roundUp_ge (b.Position + data.length) b.BlockSize
          (Nat.pos_of_ne_zero hbs)
        dsimp only [writeCommit, grow]
        omega
  | read count =>
      dsimp only [step]
      unfold OpcUa_Buffer_Read
      split_ifs with hs
      · exact ⟨h1, h2⟩
      · dsimp only
        omega
  | skip length =>
      dsimp only [step]
      unfold OpcUa_Buffer_Skip
      split_ifs with hs hlen
      · exact ⟨h1, h2⟩
      · exact ⟨h1, h2⟩
      · dsimp only
        omega
  | setPosition position =>
      dsimp only [step]
      unfold OpcUa_Buffer_SetPosition
      split_ifs with hs hend htgt htgt
      · exact ⟨h1, h2⟩
      · exact ⟨h1, h2⟩
      · dsimp only
        omega
      · exact ⟨h1, h2⟩
      · dsimp only
        omega
  | setEndOfData uEndOfData =>
      dsimp only [step]
      unfold OpcUa_Buffer_SetEndOfData
      split_ifs with hs hle
      · exact ⟨h1, h2⟩
      · exact ⟨h1, h2⟩
      · dsimp only
        omega
  | setEmpty =>
      dsimp only [step]
      unfold OpcUa_Buffer_SetEmpty
      split_ifs with hs
      · exact ⟨h1, h2⟩
      · dsimp only
        omega
  | getData =>
      exact ⟨h1, h2⟩
  | delete =>
      dsimp only [step]
      unfold OpcUa_Buffer_Clear
      dsimp only
      omega

/-- Running any sequence of operations keeps both offsets within the
capacity. -/
theorem run_bounds (ops : List BufferOp) (b : OpcUa_Buffer)
    (h1 : b.Position ≤ b.Size) (h2 : b.EndOfData ≤ b.Size) :
    (run b ops).Position ≤ (run b ops).Size ∧
      (run b ops).EndOfData ≤ (run b ops).Size := by
  induction ops generalizing b with
  | nil => exact ⟨h1, h2⟩
  | cons op rest ih =>
      have h := step_bounds b op h1 h2
      have hrun : run b (op :: rest) = run (step b op).2 rest := rfl
      rw [hrun]
      exact ih (step b op).2 h.1 h.2

/-- Concrete valid buffer used to refute claim C1 as stated: capacity 10, no
data yet, fixed size. -/
def cexC1buf : OpcUa_Buffer :=
  OpcUa_Buffer.mk true 10 0 0 0 0 (List.replicate 10 0) true

/-- C1 (counterexample): on a valid buffer with EndOfData = 0 and capacity 10,
SetPosition(5) succeeds (the spec only rejects targets beyond the capacity),
leaving Position = 5 > EndOfData = 0, so the chain
position ≤ end_of_data ≤ capacity does not hold after every returning call. -/
theorem claim_C1_cex :
    ValidBuffer cexC1buf ∧
    (OpcUa_Buffer_SetPosition cexC1buf 5).1 = OpcUa_StatusCode.Good ∧
    ¬ ((OpcUa_Buffer_SetPosition cexC1buf 5).2.Position ≤
        (OpcUa_Buffer_SetPosition cexC1buf 5).2.EndOfData) := by
  decide

/-- C1 (amended): after every returning call of any sequence of the listed
operations, 0 ≤ position ≤ capacity and 0 ≤ end_of_data ≤ capacity hold (the
stronger position ≤ end_of_data part of the original claim is broken by
SetPosition / SetEndOfData targets between end_of_data and capacity); every
buffer produced by Create satisfies both bounds as well. -/
theorem claim_C1_amended :
    (∀ data dataSize blockSize maxSize freeBuffer st buf,
        OpcUa_Buffer_Create data dataSize blockSize maxSize freeBuffer = (st, some buf) →
        buf.Position ≤ buf.Size ∧ buf.EndOfData ≤ buf.Size) ∧
    (∀ b ops, b.Position ≤ b.Size → b.EndOfData ≤ b.Size →
        (run b ops).Position ≤ (run b ops).Size ∧
          (run b ops).EndOfData ≤ (run b ops).Size) := by
  constructor
  · intro data dataSize blockSize maxSize freeBuffer st buf h
    unfold OpcUa_Buffer_Create at h
    split_ifs at h
    · simp at h
    · cases data with
      | some d =>
          simp only [Prod.mk.injEq, Option.some.injEq] at h
          obtain ⟨-, hbuf⟩ := h
          subst hbuf
          exact ⟨Nat.zero_le _, Nat.le_refl _⟩
      | none =>
          simp only [Prod.mk.injEq, Option.some.injEq] at h
          obtain ⟨-, hbuf⟩ := h
          subst hbuf
          exact ⟨Nat.zero_le _, Nat.zero_le _⟩
  · intro b ops hb1 hb2
    exact run_bounds ops b hb1 hb2

/-- Concrete buffer for the C1 witness. -/
def witC1buf : OpcUa_Buffer :=
  OpcUa_Buffer.mk true 8 4 0 4 0 (List.replicate 8 0) true

/-- Concrete operation sequence for the C1 witness. -/
def witC1ops : List BufferOp :=
  [BufferOp.write [1, 2, 3], BufferOp.setPosition 2, BufferOp.read 5,
    BufferOp.skip 1, BufferOp.setEmpty, BufferOp.getData, BufferOp.delete]

/-- C1 witness: the amended invariant theorem at a concrete buffer and
sequence. -/
theorem claim_C1_amended_witness :
    (run witC1buf witC1ops).Position ≤ (run witC1buf witC1ops).Size ∧
      (run witC1buf witC1ops).EndOfData ≤ (run witC1buf witC1ops).Size :=
  claim_C1_amended.2 witC1buf witC1ops (by decide) (by decide)

/-- C7: Skip never changes capacity, storage or end_of_data; on a live buffer
it advances the cursor by min(length, end_of_data - position) when the length
fits within the capacity, and fails with InvalidArgument leaving the buffer
unchanged when it would move the cursor past the capacity. -/
theorem claim_C7 : ∀ b len,
    ((OpcUa_Buffer_Skip b len).2.Size = b.Size ∧
      (OpcUa_Buffer_Skip b len).2.Data = b.Data ∧
      (OpcUa_Buffer_Skip b len).2.EndOfData = b.EndOfData) ∧
    (b.SanityCheck = true →
      (b.Position + len ≤ b.Size →
        OpcUa_Buffer_Skip b len =
          (OpcUa_StatusCode.Good,
            { b with Position := b.Position + min len (b.EndOfData - b.Position) })) ∧
      (b.Size < b.Position + len →
        OpcUa_Buffer_Skip b len = (OpcUa_StatusCode.BadInvalidArgument, b))) := by
  intro b len
  unfold OpcUa_Buffer_Skip
  split_ifs with hs hlen
  · simp [hs]
  · exact ⟨⟨rfl, rfl, rfl⟩, fun _ => ⟨fun hle => absurd hlen (by omega), fun _ => rfl⟩⟩
  · exact ⟨⟨rfl, rfl, rfl⟩, fun _ => ⟨fun _ => rfl, fun hlt => absurd hlt (by omega)⟩⟩

/-- Concrete buffer for the C7 witness. -/
def witC7buf : OpcUa_Buffer :=
  OpcUa_Buffer.mk true 6 4 1 2 0 [1, 2, 3, 4, 0, 0] true

/-- C7 witness: the Skip theorem at a concrete buffer and length. -/
theorem claim_C7_witness :
    OpcUa_Buffer_Skip witC7buf 9 = (OpcUa_StatusCode.BadInvalidArgument, witC7buf) :=
  ((claim_C7 witC7buf 9).2 rfl).2 (by decide)

/-- C8: the validity tag is set by Create and cleared by Clear (release);
every operation other than release on a buffer whose tag is absent fails with
InvalidHandle and mutates nothing; release drops the storage exactly when the
buffer owns it, and Delete of a null handle is a no-op. -/
theorem claim_C8 :
    (∀ data dataSize blockSize maxSize freeBuffer st buf,
        OpcUa_Buffer_Create data dataSize blockSize maxSize freeBuffer = (st, some buf) →
        buf.SanityCheck = true) ∧
    (∀ b, (OpcUa_Buffer_Clear b).SanityCheck = false) ∧
    (∀ b op, b.SanityCheck = false → op ≠ BufferOp.delete →
        step b op = (OpcUa_StatusCode.BadInvalidHandle, b)) ∧
    (∀ b, (OpcUa_Buffer_Clear b).Data = if b.FreeBuffer then [] else b.Data) ∧
    OpcUa_Buffer_Delete none = none := by
  refine ⟨?_, fun b => rfl, ?_, fun b => rfl, rfl⟩
  · intro data dataSize blockSize maxSize freeBuffer st buf h
    unfold OpcUa_Buffer_Create at h
    split_ifs at h
    · simp at h
    · cases data with
      | some d =>
          simp only [Prod.mk.injEq, Option.some.injEq] at h
          obtain ⟨-, hbuf⟩ := h
          subst hbuf
          rfl
      | none =>
          simp only [Prod.mk.injEq, Option.some.injEq] at h
          obtain ⟨-, hbuf⟩ := h
          subst hbuf
          rfl
  · intro b op hs hop
    cases op with
    | write data => simp [step, OpcUa_Buffer_Write, hs]
    | read count => simp [step, OpcUa_Buffer_Read, hs]
    | skip length => simp [step, OpcUa_Buffer_Skip, hs]
    | setPosition position => simp [step, OpcUa_Buffer_SetPosition, hs]
    | setEndOfData uEndOfData => simp [step, OpcUa_Buffer_SetEndOfData, hs]
    | setEmpty => simp [step, OpcUa_Buffer_SetEmpty, hs]
    | getData => simp [step, OpcUa_Buffer_GetData, hs]
    | delete => exact absurd rfl hop

/-- Concrete released (tag-cleared) buffer for the C8 witness. -/
def deadBuf : OpcUa_Buffer :=
  OpcUa_Buffer.mk false 4 2 1 2 0 [9, 9, 0, 0] true

/-- C8 witness: the invalid-handle clause at a concrete released buffer and a
concrete operation. -/
theorem claim_C8_witness :
    step deadBuf (BufferOp.read 3) = (OpcUa_StatusCode.BadInvalidHandle, deadBuf) :=
  claim_C8.2.2.1 deadBuf (BufferOp.read 3) rfl (by decide)

/-- C9: on a live buffer, SetEmpty succeeds and resets position and
end_of_data to 0 keeping capacity and storage; IsEmpty is true exactly when
end_of_data = 0, hence is true right after SetEmpty; and SetEmpty is
idempotent. -/
theorem claim_C9 : ∀ b, b.SanityCheck = true →
    (OpcUa_Buffer_SetEmpty b).1 = OpcUa_StatusCode.Good ∧
    (OpcUa_Buffer_SetEmpty b).2.Position = 0 ∧
    (OpcUa_Buffer_SetEmpty b).2.EndOfData = 0 ∧
    (OpcUa_Buffer_SetEmpty b).2.Size = b.Size ∧
    (OpcUa_Buffer_SetEmpty b).2.Data = b.Data ∧
    (∀ b', OpcUa_Buffer_IsEmpty b' = true ↔ b'.EndOfData = 0) ∧
    OpcUa_Buffer_IsEmpty (OpcUa_Buffer_SetEmpty b).2 = true ∧
    (OpcUa_Buffer_SetEmpty (OpcUa_Buffer_SetEmpty b).2).2 = (OpcUa_Buffer_SetEmpty b).2 := by
  intro b hs
  simp [OpcUa_Buffer_SetEmpty, OpcUa_Buffer_IsEmpty, hs]

/-- Concrete buffer for the C9 witness. -/
def witC9buf : OpcUa_Buffer :=
  OpcUa_Buffer.mk true 4 3 2 2 8 [5, 6, 7, 0] true

/-- C9 witness: the SetEmpty theorem at a concrete buffer. -/
theorem claim_C9_witness :
    (OpcUa_Buffer_SetEmpty witC9buf).2.Position = 0 ∧
      (OpcUa_Buffer_SetEmpty witC9buf).2.EndOfData = 0 :=
  ⟨(claim_C9 witC9buf rfl).2.1, (claim_C9 witC9buf rfl).2.2.1⟩

/-- Concrete valid buffer of maximal 32-bit capacity for C10. -/
def maxCapBuf : OpcUa_Buffer :=
  OpcUa_Buffer.mk true 0xFFFFFFFF 7 0 1 0 (List.replicate 0xFFFFFFFF 0) true

/-- C10: the end sentinel of SetPosition is the concrete value 0xFFFFFFFF, so
a call passing the explicit offset 0xFFFFFFFF is the very same call as the
sentinel request: on any live buffer with end_of_data within the capacity it
succeeds and puts the cursor at end_of_data, never at the literal offset —
also on a buffer whose capacity is the maximal 32-bit value (where the cursor
lands at end_of_data = 7 instead of 0xFFFFFFFF). -/
theorem claim_C10 :
    OpcUa_BufferPosition_End = 0xFFFFFFFF ∧
    (∀ b, OpcUa_Buffer_SetPosition b 0xFFFFFFFF =
        OpcUa_Buffer_SetPosition b OpcUa_BufferPosition_End) ∧
    (∀ b, b.SanityCheck = true → b.EndOfData ≤ b.Size →
        (OpcUa_Buffer_SetPosition b 0xFFFFFFFF).1 = OpcUa_StatusCode.Good ∧
        (OpcUa_Buffer_SetPosition b 0xFFFFFFFF).2.Position = b.EndOfData) ∧
    (OpcUa_Buffer_SetPosition maxCapBuf 0xFFFFFFFF).2.Position = 7 := by
  have h3 : ∀ b : OpcUa_Buffer, b.SanityCheck = true → b.EndOfData ≤ b.Size →
      (OpcUa_Buffer_SetPosition b 0xFFFFFFFF).1 = OpcUa_StatusCode.Good ∧
      (OpcUa_Buffer_SetPosition b 0xFFFFFFFF).2.Position = b.EndOfData := by
    intro b hs he
    simp [OpcUa_Buffer_SetPosition, OpcUa_BufferPosition_End, hs, Nat.not_lt.mpr he]
  exact ⟨rfl, fun b => rfl, h3, (h3 maxCapBuf rfl (by decide)).2⟩

/-- Concrete buffer for the C10 witness. -/
def witC10buf : OpcUa_Buffer :=
  OpcUa_Buffer.mk true 6 4 1 2 0 [1, 2, 3, 4, 0, 0] true

/-- C10 witness: the sentinel clause at a concrete buffer. -/
theorem claim_C10_witness :
    (OpcUa_Buffer_SetPosition witC10buf 0xFFFFFFFF).2.Position = witC10buf.EndOfData :=
  (claim_C10.2.2.1 witC10buf rfl (by decide)).2

/-- The buffer of Scenario A right after Create(initial_size=0, block_size=16,
max_size=0). -/
def scnAbuf : OpcUa_Buffer := OpcUa_Buffer.mk true 0 0 0 16 0 [] true

/-- C2: a growing write on a valid growable buffer whose rounded-up required
capacity respects a nonzero max_size succeeds; the new capacity is the least
multiple of block_size covering position + count, the bytes land in storage at
the old position, the cursor advances by count and end_of_data becomes the
maximum of its old value and the new cursor; in particular Scenario A:
Create(0, 16, 0) then a 10-byte write gives capacity 16, end_of_data 10,
position 10. -/
theorem claim_C2 :
    (∀ b data, ValidBuffer b → 0 < b.BlockSize →
      b.Size < b.Position + data.length →
      (0 < b.MaxSize → roundUp (b.Position + data.length) b.BlockSize ≤ b.MaxSize) →
      (OpcUa_Buffer_Write b data).1 = OpcUa_StatusCode.Good ∧
      (OpcUa_Buffer_Write b data).2.Size = roundUp (b.Position + data.length) b.BlockSize ∧
      b.BlockSize ∣ (OpcUa_Buffer_Write b data).2.Size ∧
      b.Position + data.length ≤ (OpcUa_Buffer_Write b data).2.Size ∧
      (∀ m, b.BlockSize ∣ m → b.Position + data.length ≤ m →
        (OpcUa_Buffer_Write b data).2.Size ≤ m) ∧
      ((OpcUa_Buffer_Write b data).2.Data.drop b.Position).take data.length = data ∧
      (OpcUa_Buffer_Write b data).2.Position = b.Position + data.length ∧
      (OpcUa_Buffer_Write b data).2.EndOfData = max b.EndOfData (b.Position + data.length)) ∧
    (OpcUa_Buffer_Create none 0 16 0 true = (OpcUa_StatusCode.Good, some scnAbuf) ∧
      ∀ data, data.length = 10 →
        (OpcUa_Buffer_Write scnAbuf data).1 = OpcUa_StatusCode.Good ∧
        (OpcUa_Buffer_Write scnAbuf data).2.Size = 16 ∧
        (OpcUa_Buffer_Write scnAbuf data).2.EndOfData = 10 ∧
        (OpcUa_Buffer_Write scnAbuf data).2.Position = 10) := by
  constructor
  · intro b data hv hbs hg hmax
    obtain ⟨hs, hple, hes, hlen⟩ := hv
    have heq := write_grow_eq b data hs hg (by omega) hmax
    rw [heq]
    dsimp only [writeCommit, grow]
    have hge := roundUp_ge (b.Position + data.length) b.BlockSize hbs
    refine ⟨rfl, rfl, roundUp_dvd _ _, hge,
      fun m hdm hm => roundUp_min _ _ _ hbs hdm hm, ?_, rfl, rfl⟩
    apply overwrite_slice
    simp only [List.length_append, List.length_replicate]
    omega
  · refine ⟨rfl, ?_⟩
    intro data hlen
    have heq := write_grow_eq scnAbuf data rfl (by simp [scnAbuf, hlen])
      (by decide) (fun h => absurd h (by decide))
    rw [heq]
    have hru : roundUp (scnAbuf.Position + data.length) scnAbuf.BlockSize = 16 := by
      rw [hlen]
      decide
    dsimp only [writeCommit, grow]
    rw [hru, hlen]
    exact ⟨rfl, rfl, rfl, rfl⟩

/-- Concrete buffer for the C2 witness. -/
def witC2buf : OpcUa_Buffer := OpcUa_Buffer.mk true 4 2 2 4 0 [9, 9, 0, 0] true

/-- C2 witness: the growth theorem at a concrete buffer and payload. -/
theorem claim_C2_witness :
    (OpcUa_Buffer_Write witC2buf [5, 6, 7]).1 = OpcUa_StatusCode.Good ∧
      (OpcUa_Buffer_Write witC2buf [5, 6, 7]).2.Size = 8 :=
  ⟨(claim_C2.1 witC2buf [5, 6, 7] (by decide) (by decide) (by decide)
      (fun h => absurd h (by decide))).1,
    (claim_C2.1 witC2buf [5, 6, 7] (by decide) (by decide) (by decide)
      (fun h => absurd h (by decide))).2.1⟩

/-- C3: a write whose rounded-up required capacity exceeds a nonzero max_size
fails with OutOfMemory and returns the buffer bit-for-bit unchanged; and, in
general, every operation that does not return Good leaves the buffer
unchanged. -/
theorem claim_C3 :
    (∀ b data, b.SanityCheck = true → b.Size < b.Position + data.length →
      b.BlockSize ≠ 0 → 0 < b.MaxSize →
      b.MaxSize < roundUp (b.Position + data.length) b.BlockSize →
      OpcUa_Buffer_Write b data = (OpcUa_StatusCode.BadOutOfMemory, b)) ∧
    (∀ b op, (step b op).1 ≠ OpcUa_StatusCode.Good → (step b op).2 = b) := by
  constructor
  · intro b data hs hg hbs hm1 hm2
    unfold OpcUa_Buffer_Write
    rw [if_neg (by simp [hs]), if_neg (by omega), if_neg hbs, if_pos ⟨hm1, hm2⟩]
  · intro b op hst
    cases op with
    | write data =>
        dsimp only [step] at hst ⊢
        unfold OpcUa_Buffer_Write at hst ⊢
        split_ifs at hst ⊢ <;> first | rfl | exact absurd rfl hst
    | read count =>
        dsimp only [step] at hst ⊢
        unfold OpcUa_Buffer_Read at hst ⊢
        split_ifs at hst ⊢ <;> first | rfl | exact absurd rfl hst
    | skip length =>
        dsimp only [step] at hst ⊢
        unfold OpcUa_Buffer_Skip at hst ⊢
        split_ifs at hst ⊢ <;> first | rfl | exact absurd rfl hst
    | setPosition position =>
        dsimp only [step] at hst ⊢
        unfold OpcUa_Buffer_SetPosition at hst ⊢
        split_ifs at hst ⊢ <;> first | rfl | exact absurd rfl hst
    | setEndOfData uEndOfData =>
        dsimp only [step] at hst ⊢
        unfold OpcUa_Buffer_SetEndOfData at hst ⊢
        split_ifs at hst ⊢ <;> first | rfl | exact absurd rfl hst
    | setEmpty =>
        dsimp only [step] at hst ⊢
        unfold OpcUa_Buffer_SetEmpty at hst ⊢
        split_ifs at hst ⊢ <;> first | rfl | exact absurd rfl hst
    | getData => rfl
    | delete => exact absurd rfl hst

/-- Concrete fixed, capped buffer for the C3 witness. -/
def witC3buf : OpcUa_Buffer := OpcUa_Buffer.mk true 4 0 0 4 8 [0, 0, 0, 0] true

/-- C3 witness: a 9-byte write on a capacity-4 buffer with max_size 8 needs
capacity 12 and is refused with OutOfMemory, buffer untouched. -/
theorem claim_C3_witness :
    OpcUa_Buffer_Write witC3buf (List.replicate 9 1) =
      (OpcUa_StatusCode.BadOutOfMemory, witC3buf) :=
  claim_C3.1 witC3buf (List.replicate 9 1) rfl (by decide) (by decide) (by decide)
    (by decide)

/-- C4: on a valid buffer a Read never fails: it returns Good together with
exactly min(count, end_of_data - position) bytes taken from storage at the
cursor, advances the cursor by that amount, and returns no bytes at
end-of-stream (position = end_of_data). -/
theorem claim_C4 : ∀ b count, ValidBuffer b →
    (OpcUa_Buffer_Read b count).1 = OpcUa_StatusCode.Good ∧
    (OpcUa_Buffer_Read b count).2.2 =
      (b.Data.drop b.Position).take (min count (b.EndOfData - b.Position)) ∧
    (OpcUa_Buffer_Read b count).2.2.length = min count (b.EndOfData - b.Position) ∧
    (OpcUa_Buffer_Read b count).2.1 =
      { b with Position := b.Position + min count (b.EndOfData - b.Position) } ∧
    (b.Position = b.EndOfData → (OpcUa_Buffer_Read b count).2.2 = []) := by
  intro b count hv
  obtain ⟨hs, hple, hes, hlen⟩ := hv
  unfold OpcUa_Buffer_Read
  rw [if_neg (by simp [hs])]
  refine ⟨rfl, rfl, ?_, rfl, ?_⟩
  · simp only [List.length_take, List.length_drop]
    omega
  · intro hpe2
    rw [hpe2]
    simp

/-- Concrete buffer for the C4 witness: 4 valid bytes, cursor at 2, short
read of 5. -/
def witC4buf : OpcUa_Buffer := OpcUa_Buffer.mk true 6 4 2 0 0 [1, 2, 3, 4, 0, 0] true

/-- C4 witness: the Read theorem at a concrete buffer where only 2 of the 5
requested bytes remain. -/
theorem claim_C4_witness :
    (OpcUa_Buffer_Read witC4buf 5).1 = OpcUa_StatusCode.Good ∧
      (OpcUa_Buffer_Read witC4buf 5).2.2.length = min 5 (witC4buf.EndOfData - witC4buf.Position) :=
  ⟨(claim_C4 witC4buf 5 (by decide)).1, (claim_C4 witC4buf 5 (by decide)).2.2.1⟩

/-- C6: on a valid buffer, SetPosition with the start sentinel moves the
cursor to 0; with the end sentinel it moves the cursor to the current
end_of_data, after which any Read returns no bytes; with an explicit
(non-sentinel) offset within the capacity it succeeds and sets exactly that
offset; and with an explicit offset beyond the capacity it fails with
InvalidArgument leaving the buffer unchanged. -/
theorem claim_C6 : ∀ b, ValidBuffer b →
    (OpcUa_Buffer_SetPosition b OpcUa_BufferPosition_Start =
      (OpcUa_StatusCode.Good, { b with Position := 0 })) ∧
    (OpcUa_Buffer_SetPosition b OpcUa_BufferPosition_End =
      (OpcUa_StatusCode.Good, { b with Position := b.EndOfData })) ∧
    (∀ n, (OpcUa_Buffer_Read (OpcUa_Buffer_SetPosition b OpcUa_BufferPosition_End).2 n).2.2 = []) ∧
    (∀ p, p ≠ OpcUa_BufferPosition_End → p ≤ b.Size →
      OpcUa_Buffer_SetPosition b p = (OpcUa_StatusCode.Good, { b with Position := p })) ∧
    (∀ p, p ≠ OpcUa_BufferPosition_End → b.Size < p →
      OpcUa_Buffer_SetPosition b p = (OpcUa_StatusCode.BadInvalidArgument, b)) := by
  intro b hv
  obtain ⟨hs, hple, hes, hlen⟩ := hv
  have hsp : ∀ p, p ≠ OpcUa_BufferPosition_End → p ≤ b.Size →
      OpcUa_Buffer_SetPosition b p = (OpcUa_StatusCode.Good, { b with Position := p }) := by
    intro p hne hle
    unfold OpcUa_Buffer_SetPosition
    rw [if_neg (by simp [hs])]
    simp only [if_neg hne]
    rw [if_neg (by omega)]
  have hend : OpcUa_Buffer_SetPosition b OpcUa_BufferPosition_End =
      (OpcUa_StatusCode.Good, { b with Position := b.EndOfData }) := by
    unfold OpcUa_Buffer_SetPosition
    rw [if_neg (by simp [hs])]
    have hi : (if OpcUa_BufferPosition_End = OpcUa_BufferPosition_End then b.EndOfData
        else OpcUa_BufferPosition_End) = b.EndOfData := if_pos rfl
    rw [hi, if_neg (by omega)]
  refine ⟨?_, hend, ?_, hsp, ?_⟩
  · exact hsp OpcUa_BufferPosition_Start (by decide) (Nat.zero_le _)
  · intro n
    rw [hend]
    show (OpcUa_Buffer_Read { b with Position := b.EndOfData } n).2.2 = []
    unfold OpcUa_Buffer_Read
    rw [if_neg (by simp [hs])]
    simp
  · intro p hne hlt
    unfold OpcUa_Buffer_SetPosition
    rw [if_neg (by simp [hs])]
    simp only [if_neg hne]
    rw [if_pos hlt]

/-- Concrete buffer for the C6 witness. -/
def witC6buf : OpcUa_Buffer := OpcUa_Buffer.mk true 6 4 1 2 0 [1, 2, 3, 4, 0, 0] true

/-- C6 witness: the SetPosition theorem at a concrete buffer, explicit offset
3 within capacity. -/
theorem claim_C6_witness :
    OpcUa_Buffer_SetPosition witC6buf 3 =
      (OpcUa_StatusCode.Good, { witC6buf with Position := 3 }) :=
  (claim_C6 witC6buf (by decide)).2.2.2.1 3 (by decide) (by decide)

/-- Reading `data.length` bytes from a buffer whose storage is
`overwrite storage pos data`, with the cursor at `pos` and end_of_data at
`pos + data.length`, returns exactly `data`. -/
theorem readback (storage : List Nat) (pos : Nat) (data : List Nat) (b2 : OpcUa_Buffer)
    (hs : b2.SanityCheck = true) (hpos : b2.Position = pos)
    (heod : b2.EndOfData = pos + data.length)
    (hdata : b2.Data = overwrite storage pos data)
    (hsl : pos ≤ storage.length) :
    (OpcUa_Buffer_Read b2 data.length).2.2 = data := by
  unfold OpcUa_Buffer_Read
  rw [if_neg (by simp [hs])]
  dsimp only
  rw [hpos, heod, hdata]
  rw [show min data.length (pos + data.length - pos) = data.length from by omega]
  exact overwrite_slice storage pos data hsl

/-- A read at or past end_of_data returns no bytes. -/
theorem read_at_end (b2 : OpcUa_Buffer) (n : Nat) (hs : b2.SanityCheck = true)
    (h : b2.EndOfData ≤ b2.Position) : (OpcUa_Buffer_Read b2 n).2.2 = [] := by
  unfold OpcUa_Buffer_Read
  rw [if_neg (by simp [hs])]
  dsimp only
  rw [show min n (b2.EndOfData - b2.Position) = 0 from by omega, List.take_zero]

/-- SetPosition with the end sentinel moves the cursor to end_of_data. -/
theorem setPosition_end_eq (b2 : OpcUa_Buffer) (p : Nat) (hs : b2.SanityCheck = true)
    (hp : p = OpcUa_BufferPosition_End) (he : b2.EndOfData ≤ b2.Size) :
    OpcUa_Buffer_SetPosition b2 p =
      (OpcUa_StatusCode.Good, { b2 with Position := b2.EndOfData }) := by
  subst hp
  unfold OpcUa_Buffer_SetPosition
  rw [if_neg (by simp [hs])]
  have hi : (if OpcUa_BufferPosition_End = OpcUa_BufferPosition_End then b2.EndOfData
      else OpcUa_BufferPosition_End) = b2.EndOfData := if_pos rfl
  rw [hi, if_neg (by omega)]

/-- After committing `data` over a base buffer `c` that agrees with `b` on the
cursor and end_of_data (with cursor at end_of_data, away from the sentinel),
setting the cursor back and reading the byte count returns `data`. -/
theorem write_readback (b c : OpcUa_Buffer) (data : List Nat)
    (hs : c.SanityCheck = true)
    (hp : c.Position = b.Position) (he : c.EndOfData = b.EndOfData)
    (hpe : b.Position = b.EndOfData) (hne : b.EndOfData ≠ OpcUa_BufferPosition_End)
    (hfit : b.Position + data.length ≤ c.Data.length)
    (hcl : c.Data.length = c.Size) :
    (OpcUa_Buffer_SetPosition (writeCommit c data) b.EndOfData).1 = OpcUa_StatusCode.Good ∧
    (OpcUa_Buffer_Read (OpcUa_Buffer_SetPosition (writeCommit c data) b.EndOfData).2
      data.length).2.2 = data := by
  have hsp : OpcUa_Buffer_SetPosition (writeCommit c data) b.EndOfData =
      (OpcUa_StatusCode.Good, { writeCommit c data with Position := b.EndOfData }) := by
    unfold OpcUa_Buffer_SetPosition
    rw [if_neg (by simp [writeCommit, hs])]
    simp only [if_neg hne]
    rw [if_neg (by dsimp only [writeCommit]; omega)]
  rw [hsp]
  refine ⟨rfl, ?_⟩
  dsimp only
  apply readback c.Data b.Position data
  · dsimp only [writeCommit]
    exact hs
  · dsimp only [writeCommit]
    exact hpe.symm
  · dsimp only [writeCommit]
    omega
  · dsimp only [writeCommit]
    rw [hp]
  · omega

/-- The C5 counterexample buffer: a full, maximal 32-bit buffer whose
end_of_data equals the SetPosition end sentinel 0xFFFFFFFF. -/
def cexC5buf : OpcUa_Buffer :=
  OpcUa_Buffer.mk true 0xFFFFFFFF 0xFFFFFFFF 0xFFFFFFFF 1 0
    (List.replicate 0xFFFFFFFF 0) true

/-- C5 (counterexample): on a valid buffer with
position = end_of_data = 0xFFFFFFFF, writing [7] succeeds (block_size 1,
max_size 0), but setting the position back to that offset hits the end
sentinel — the cursor lands at the new end_of_data — so reading 1 byte
returns [] instead of [7]: the round trip fails as stated. -/
theorem claim_C5_cex :
    ValidBuffer cexC5buf ∧
    cexC5buf.Position = cexC5buf.EndOfData ∧
    (OpcUa_Buffer_Write cexC5buf [7]).1 = OpcUa_StatusCode.Good ∧
    (OpcUa_Buffer_Read (OpcUa_Buffer_SetPosition
        (OpcUa_Buffer_Write cexC5buf [7]).2 cexC5buf.EndOfData).2 1).2.2 ≠ [7] := by
  have hvalid : ValidBuffer cexC5buf := by
    refine ⟨rfl, Nat.le_refl _, Nat.le_refl _, ?_⟩
    rw [show cexC5buf.Data = List.replicate 0xFFFFFFFF 0 from rfl, List.length_replicate]
    rfl
  have hw := write_grow_eq cexC5buf [7] rfl (by decide) (by decide)
    (fun h => absurd h (by decide))
  refine ⟨hvalid, rfl, ?_, ?_⟩
  · rw [hw]
  · rw [hw]
    dsimp only
    rw [setPosition_end_eq _ cexC5buf.EndOfData rfl rfl (by decide)]
    dsimp only
    rw [read_at_end _ 1 rfl (Nat.le_refl _)]
    decide

/-- C5 (amended): round-trip holds away from the sentinel: on a valid buffer
with position = end_of_data and end_of_data different from the 0xFFFFFFFF
sentinel, if a Write of `data` succeeds then setting the position back to the
old offset succeeds and reading `data.length` bytes returns exactly `data`. -/
theorem claim_C5_amended : ∀ b data b', ValidBuffer b →
    b.Position = b.EndOfData → b.EndOfData ≠ OpcUa_BufferPosition_End →
    OpcUa_Buffer_Write b data = (OpcUa_StatusCode.Good, b') →
    (OpcUa_Buffer_SetPosition b' b.EndOfData).1 = OpcUa_StatusCode.Good ∧
    (OpcUa_Buffer_Read (OpcUa_Buffer_SetPosition b' b.EndOfData).2 data.length).2.2 = data := by
  intro b data b' hv hpe hne hw
  obtain ⟨hs, hple, hes, hlen⟩ := hv
  by_cases hfit : b.Position + data.length ≤ b.Size
  · rw [write_nogrow_eq b data hs hfit] at hw
    injection hw with h1 h2
    subst h2
    exact write_readback b b data hs rfl rfl hpe hne (by omega) hlen
  · have hbs : b.BlockSize ≠ 0 := by
      intro h0
      unfold OpcUa_Buffer_Write at hw
      rw [if_neg (by simp [hs]), if_neg hfit, if_pos h0] at hw
      injection hw with h1 h2
      exact OpcUa_StatusCode.noConfusion h1
    have hmax : 0 < b.MaxSize → roundUp (b.Position + data.length) b.BlockSize ≤ b.MaxSize := by
      intro hm
      by_contra hc
      push_neg at hc
      unfold OpcUa_Buffer_Write at hw
      rw [if_neg (by simp [hs]), if_neg hfit, if_neg hbs, if_pos ⟨hm, hc⟩] at hw
      injection hw with h1 h2
      exact OpcUa_StatusCode.noConfusion h1
    rw [write_grow_eq b data hs (by omega) hbs hmax] at hw
    injection hw with h1 h2
    subst h2
    have hge := roundUp_ge (b.Position + data.length) b.BlockSize (Nat.pos_of_ne_zero hbs)
    have hfit2 : b.Position + data.length ≤
        (grow b (roundUp (b.Position + data.length) b.BlockSize)).Data.length := by
      dsimp only [grow]
      simp only [List.length_append, List.length_replicate]
      omega
    have hcl2 : (grow b (roundUp (b.Position + data.length) b.BlockSize)).Data.length =
        (grow b (roundUp (b.Position + data.length) b.BlockSize)).Size := by
      dsimp only [grow]
      simp only [List.length_append, List.length_replicate]
      omega
    exact write_readback b (grow b (roundUp (b.Position + data.length) b.BlockSize)) data
      hs rfl rfl hpe hne hfit2 hcl2

/-- Concrete buffer for the C5 witness (no growth). -/
def witC5buf : OpcUa_Buffer := OpcUa_Buffer.mk true 4 2 2 4 0 [9, 9, 0, 0] true

/-- C5 witness: the amended round-trip theorem at a concrete buffer and
payload [5]. -/
theorem claim_C5_amended_witness :
    (OpcUa_Buffer_Read (OpcUa_Buffer_SetPosition
        (OpcUa_Buffer_Write witC5buf [5]).2 witC5buf.EndOfData).2 1).2.2 = [5] :=
  (claim_C5_amended witC5buf [5] (OpcUa_Buffer_Write witC5buf [5]).2 (by decide) rfl
    (by decide) (by decide)).2
